import Mathlib

/-!
# MediTrack form validation and submission pipeline — verification

A shallow embedding of the client-side form validation and submission layer of
the MediTrack web application (`assets/js/form-validator.js`,
`assets/js/supabase-config.js`, `assets/js/error-manager.js`,
`assets/js/utils.js`), together with proofs and refutations of the
specification's testable properties.

Conventions used throughout:

* JavaScript strings are modelled by Lean `String`; `String.trim`,
  `String.toLower` model the corresponding JS methods (the engines agree on
  the ASCII inputs exercised here).
* JS numeric coercion (`ToNumber`, as used by `isNaN(v)` and relational
  comparison of a string against a number) is modelled by `jsToNumber?`,
  restricted to the plain decimal notation that form inputs produce; `none`
  models `NaN`.  `parseFloatJs` models `parseFloat` (longest numeric prefix).
* The platform `Date` parser is modelled by `jsDateParses` / `jsDateVal?`,
  restricted to the `YYYY-MM-DD` date-only strings that the date inputs and
  the CSV importer feed it.
* Regular-expression tests from the source are translated into executable
  character-list predicates; each definition's doc comment quotes the regex
  it embeds.
-/

set_option linter.unusedVariables false

namespace MediTrack

/-! ## Character and string helpers -/

/-- `c` is an ASCII decimal digit (`\d` / `[0-9]` in the source regexes). -/
def isDigitC (c : Char) : Bool := '0' ≤ c && c ≤ '9'

/-- `c` is an ASCII uppercase letter (`[A-Z]`). -/
def isUpperC (c : Char) : Bool := 'A' ≤ c && c ≤ 'Z'

/-- `c` matches `[A-Z0-9]`. -/
def isUpperOrDigit (c : Char) : Bool := isUpperC c || isDigitC c

/-- `c` matches `[A-Z0-9\-]`. -/
def isUpperDigitHyphen (c : Char) : Bool := isUpperC c || isDigitC c || c == '-'

/-- `needle` occurs at the start of `hay` (character lists). -/
def leadsList : List Char → List Char → Bool
  | [], _ => true
  | _ :: _, [] => false
  | a :: as, b :: bs => a == b && leadsList as bs

/-- `needle` occurs somewhere inside `hay` (character lists). -/
def withinList (needle : List Char) : List Char → Bool
  | [] => leadsList needle []
  | b :: bs => leadsList needle (b :: bs) || withinList needle bs

/-- JS `hay.includes(needle)`. -/
def containsSub (hay needle : String) : Bool := withinList needle.toList hay.toList

/-- JS `s.endsWith(sfx)`. -/
def endsWithStr (s sfx : String) : Bool := leadsList sfx.toList.reverse s.toList.reverse

/-- JS `s.startsWith(pre)`. -/
def startsWithStr (s pre : String) : Bool := leadsList pre.toList s.toList

/-- JS `s.toLowerCase()` on the ASCII inputs in scope (character-wise, so the
kernel can evaluate it, unlike `String.toLower`). -/
def jsToLower (s : String) : String := String.mk (s.toList.map Char.toLower)

/-- JS `s.toUpperCase()` on the ASCII inputs in scope. -/
def jsToUpper (s : String) : String := String.mk (s.toList.map Char.toUpper)

/-- JS `s.trim()` (ASCII whitespace). -/
def jsTrim (s : String) : String :=
  String.mk (((s.toList.dropWhile Char.isWhitespace).reverse.dropWhile Char.isWhitespace).reverse)

/-- JS `s.split(sep)` for a one-character separator. -/
def splitChar (sep : Char) (s : String) : List String :=
  (s.toList.splitOn sep).map String.mk

/-- JS `arr.join(sep)` for string arrays. -/
def joinWith (sep : String) : List String → String
  | [] => ""
  | [x] => x
  | x :: y :: rest => x ++ sep ++ joinWith sep (y :: rest)

/-! ## JS numeric model -/

/-- Numeric value of a list of ASCII digits (total; `0` on `[]`). -/
def digitsVal (l : List Char) : Nat :=
  l.foldl (fun a c => 10 * a + (c.toNat - '0'.toNat)) 0

/-- Unsigned decimal literal `\d*(\.\d*)?` with at least one digit overall,
as accepted by JS `ToNumber`. -/
def decimalVal? (l : List Char) : Option Rat :=
  match l.splitOn '.' with
  | [ip] => if ip ≠ [] && ip.all isDigitC then some (digitsVal ip : Rat) else none
  | [ip, fp] =>
      if (ip ≠ [] || fp ≠ []) && ip.all isDigitC && fp.all isDigitC then
        some ((digitsVal ip : Rat) + (digitsVal fp : Rat) / ((10 : Rat) ^ fp.length))
      else none
  | _ => none

/-- Model of JS `ToNumber` on a (pre-trimmed) string, restricted to plain
decimal notation: optional sign, digits, optional fraction. `ToNumber("")` is
`0`; `none` models `NaN`. Exponents, hex and `Infinity` forms are outside the
fragment the application feeds this coercion. -/
def jsToNumber? (s : String) : Option Rat :=
  match s.toList with
  | [] => some 0
  | '-' :: rest => (decimalVal? rest).map Neg.neg
  | '+' :: rest => decimalVal? rest
  | l => decimalVal? l

/-- JS global `isNaN(s)` for a string argument. -/
def jsIsNaN (s : String) : Bool := (jsToNumber? s).isNone

/-- JS relational comparison `s < 0` for a string `s` (coerces via `ToNumber`;
`NaN` comparisons are `false`). -/
def jsLtZero (s : String) : Bool :=
  match jsToNumber? s with
  | some q => q < 0
  | none => false

/-- Model of JS `parseFloat`: longest decimal prefix (optional sign, digits,
optional `.` and more digits); `none` models `NaN`. -/
def parseFloatJs (s : String) : Option Rat :=
  let l := s.toList
  let signNeg := l.head? == some '-'
  let l1 := if l.head? == some '-' || l.head? == some '+' then l.tail else l
  let ip := l1.takeWhile isDigitC
  let rest := l1.drop ip.length
  let fp := match rest with
    | '.' :: r => r.takeWhile isDigitC
    | _ => []
  if ip = [] && fp = [] then none
  else
    let v : Rat := (digitsVal ip : Rat) + (digitsVal fp : Rat) / ((10 : Rat) ^ fp.length)
    some (if signNeg then -v else v)

/-! ## JS date model

The application hands `Date.parse` / `new Date(...)` exclusively the
`YYYY-MM-DD` strings produced by `<input type="date">` elements and by the CSV
date column. The model accepts exactly those well-formed date-only strings. -/

/-- Model of the platform date parser on `YYYY-MM-DD` strings: returns the
date encoded as `y*10000 + m*100 + d` (an order-preserving encoding), `none`
for anything the parser rejects (`Invalid Date` / `NaN`). -/
def jsDateVal? (s : String) : Option Nat :=
  match s.toList with
  | [y1, y2, y3, y4, '-', m1, m2, '-', d1, d2] =>
      if [y1, y2, y3, y4, m1, m2, d1, d2].all isDigitC then
        let m := digitsVal [m1, m2]
        let d := digitsVal [d1, d2]
        if 1 ≤ m && m ≤ 12 && 1 ≤ d && d ≤ 31 then
          some (digitsVal [y1, y2, y3, y4] * 10000 + m * 100 + d)
        else none
      else none
  | _ => none

/-- `!isNaN(Date.parse(s))` in the modelled fragment. -/
def jsDateParses (s : String) : Bool := (jsDateVal? s).isSome

/-- JS `new Date(a) > new Date(b)`: numeric comparison, `false` when either
side is `Invalid Date`. -/
def jsDateGt (a b : String) : Bool :=
  match jsDateVal? a, jsDateVal? b with
  | some x, some y => x > y
  | _, _ => false

/-- JS string relational comparison `a > b` (code-unit lexicographic; the
Lean `String` order agrees on the inputs in scope). -/
def jsStrGt (a b : String) : Bool := decide (b < a)

/-! ## ErrorManager (`assets/js/error-manager.js`)

Standardized error objects carry `message : string`, `code` (a number, a
string such as `'NETWORK_ERROR'`, or absent/null) and `type : string`
(`standardizeError`, lines 218–264). Only those three fields feed
`categorizeError`. -/

/-- The `code` field of a standardized error object: absent/null, a number, or
a string code. -/
inductive ErrCode where
  | none
  | num (n : Int)
  | str (s : String)
  deriving DecidableEq, Repr

/-- JS strict equality `code === n` for an integer literal `n`. -/
def ErrCode.eqNum (c : ErrCode) (n : Int) : Bool :=
  match c with
  | .num m => m == n
  | _ => false

/-- JS strict equality `code === 'NETWORK_ERROR'`. -/
def ErrCode.isNetworkErrorCode (c : ErrCode) : Bool :=
  match c with
  | .str s => s == "NETWORK_ERROR"
  | _ => false

/-- JS `code >= 400 && code < 600` (relational comparison: null is falsy here,
a numeric string coerces, a non-numeric string gives `NaN`, i.e. `false`). -/
def ErrCode.inApiRange (c : ErrCode) : Bool :=
  match c with
  | .none => false
  | .num n => 400 ≤ n && n < 600
  | .str s =>
      match jsToNumber? s with
      | some q => 400 ≤ q && q < 600
      | Option.none => false

/-- A standardized error object, restricted to the fields `categorizeError`
reads. -/
structure ErrObj where
  message : String
  code : ErrCode
  type : String
  deriving DecidableEq, Repr

/-- `ErrorManager.categorizeError` (error-manager.js lines 272–348), translated
branch for branch: network check first, then the `[400,600)` API branch with
AUTH/PERMISSION subcases, then validation, data, UI, auth keywords, else
UNKNOWN. -/
def categorizeError (e : ErrObj) : String :=
  let message := jsToLower e.message
  if e.type == "NetworkError" || containsSub message "network" ||
      containsSub message "connection" || containsSub message "timeout" ||
      e.code.isNetworkErrorCode then
    "NETWORK"
  else if e.code.inApiRange || containsSub message "api" ||
      containsSub message "server" || e.type == "HTTPError" then
    if e.code.eqNum 401 || e.code.eqNum 403 || containsSub message "unauthorized" ||
        containsSub message "forbidden" then
      "AUTH"
    else if e.code.eqNum 403 || containsSub message "permission" ||
        containsSub message "access denied" then
      "PERMISSION"
    else
      "API"
  else if e.code.eqNum 400 || containsSub message "validation" ||
      containsSub message "invalid" || containsSub message "required" ||
      e.type == "ValidationError" then
    "VALIDATION"
  else if containsSub message "data" || containsSub message "parse" ||
      containsSub message "json" || e.type == "SyntaxError" || e.type == "DataError" then
    "DATA"
  else if containsSub message "element" || containsSub message "dom" ||
      containsSub message "render" || e.type == "DOMException" then
    "UI"
  else if containsSub message "auth" || containsSub message "login" ||
      containsSub message "token" || containsSub message "session" then
    "AUTH"
  else
    "UNKNOWN"

/-! ## Validation rule predicates (`assets/js/form-validator.js`, `utils.js`) -/

/-- `medicalRules.patientId.test`: regex `^[A-Z]{2}\d{6}$` (form-validator.js
line 54) — exactly two uppercase letters followed by exactly six digits. -/
def patientIdRuleTest (v : String) : Bool :=
  let l := v.toList
  l.length == 8 && (l.take 2).all isUpperC && (l.drop 2).all isDigitC

/-- The pattern `^[A-Z0-9]{6,12}$` quoted by the specification for the
patient-id rule, and used verbatim by `FormHandler.validateField`
(supabase-config.js line 486) and `Utils.String.validateMedicalId`
(utils.js line 326). -/
def upperAlnum612 (v : String) : Bool :=
  let l := v.toList
  decide (6 ≤ l.length) && decide (l.length ≤ 12) && l.all isUpperOrDigit

/-- `FormHandler` sample-id pattern `^[A-Z0-9\-]{8,16}$` (supabase-config.js
line 493). -/
def sampleIdPat (v : String) : Bool :=
  let l := v.toList
  decide (8 ≤ l.length) && decide (l.length ≤ 16) && l.all isUpperDigitHyphen

/-- `medicalRules.drugCode.test`: regex `^[A-Z0-9]{3,10}$`. -/
def drugCodeTest (v : String) : Bool :=
  let l := v.toList
  decide (3 ≤ l.length) && decide (l.length ≤ 10) && l.all isUpperOrDigit

/-- `medicalRules.batchNumber.test`: regex `^[A-Z0-9\-]{4,20}$`. -/
def batchNumberTest (v : String) : Bool :=
  let l := v.toList
  decide (4 ≤ l.length) && decide (l.length ≤ 20) && l.all isUpperDigitHyphen

/-- `medicalRules.concentration.test`: regex
`^\d+(\.\d+)?\s*(mg|g|ml|l|%|μg|ng)$/i` — digits, optional fraction, optional
whitespace, then a unit token (case-insensitive). -/
def concentrationTest (v : String) : Bool :=
  let l := v.toList
  let ds := l.takeWhile isDigitC
  let rest := l.drop ds.length
  let unitPart? : Option (List Char) :=
    match rest with
    | '.' :: r =>
        let fs := r.takeWhile isDigitC
        if fs = [] then none else some (r.drop fs.length)
    | _ => some rest
  ds ≠ [] &&
    match unitPart? with
    | some r2 =>
        let u := String.mk (r2.dropWhile (·.isWhitespace))
        ["mg", "g", "ml", "l", "%", "μg", "ng"].contains (jsToLower u)
    | none => false

/-- `Utils.String.validateMedicalId(id, 'patient')` (utils.js lines 309–363):
trims and uppercases the id, then tests `^[A-Z0-9]{6,12}$`; returns the
validity flag. The empty string is rejected up front (`!id`). -/
def validateMedicalIdPatient (id : String) : Bool :=
  if id == "" then false
  else upperAlnum612 (jsToUpper (jsTrim id))

/-- Email regex `^[^\s@]+@[^\s@]+\.[^\s@]+$` (form-validator.js line 14 and
`FormHandler.isValidEmail`, supabase-config.js line 1044). The language:
exactly one `@`, a nonempty whitespace-free local part, and a whitespace-free
domain containing a `.` that is neither its first nor its last character. -/
def isValidEmail (s : String) : Bool :=
  match s.toList.splitOn '@' with
  | [loc, dom] =>
      loc ≠ [] && loc.all (fun c => !c.isWhitespace) &&
      dom.all (fun c => !c.isWhitespace) &&
      ((dom.drop 1).dropLast.contains '.')
  | _ => false

/-- `FormHandler.isValidPhone`: regex `^[\+]?[\d\s\-\(\)]{10,}$`
(supabase-config.js line 1049). -/
def isValidPhoneFH (s : String) : Bool :=
  let l := s.toList
  let l' := if l.head? == some '+' then l.tail else l
  decide (10 ≤ l'.length) &&
    l'.all (fun c => isDigitC c || c.isWhitespace || c == '-' || c == '(' || c == ')')

/-- `rules.phone.test` (form-validator.js line 18): strips `[\s\-\(\)]`, then
tests `^[\+]?[1-9][\d]{0,15}$`. -/
def fvPhoneTest (v : String) : Bool :=
  let cleaned := v.toList.filter (fun c => !(c.isWhitespace || c == '-' || c == '(' || c == ')'))
  let l := if cleaned.head? == some '+' then cleaned.tail else cleaned
  match l with
  | [] => false
  | d :: rest => ('1' ≤ d && d ≤ '9') && decide (rest.length ≤ 15) && rest.all isDigitC

/-- `rules.required.test` (form-validator.js line 10) on a string value:
`value.toString().trim() !== ''`. -/
def requiredTest (v : String) : Bool := jsTrim v != ""

/-- `rules.number.test`: `!isNaN(value) && isFinite(value)`. -/
def fvNumberTest (v : String) : Bool := (jsToNumber? v).isSome

/-- `rules.positiveNumber.test`:
`!isNaN(value) && isFinite(value) && parseFloat(value) > 0`. -/
def fvPositiveNumberTest (v : String) : Bool :=
  (jsToNumber? v).isSome &&
    match parseFloatJs v with
    | some p => 0 < p
    | none => false

/-- `rules.integer.test`: `Number.isInteger(Number(value))`. -/
def fvIntegerTest (v : String) : Bool :=
  match jsToNumber? v with
  | some q => q.den == 1
  | none => false

/-- `rules.date.test`: `!isNaN(Date.parse(value))`. -/
def fvDateTest (v : String) : Bool := jsDateParses v

/-- `rules.minLength(min).test`, reached via a `minLength:param` rule name:
`value.length >= min` where `min` is the (string) parameter, so the comparison
coerces it with `ToNumber`. -/
def minLenTest (param : String) (v : String) : Bool :=
  match jsToNumber? param with
  | some q => decide ((v.length : Rat) ≥ q)
  | none => false

/-- `rules.maxLength(max).test`, reached via `maxLength:param`. -/
def maxLenTest (param : String) (v : String) : Bool :=
  match jsToNumber? param with
  | some q => decide ((v.length : Rat) ≤ q)
  | none => false

/-! ## Form element model

`Field` models one `input`/`select`/`textarea` descendant of a form, with the
attributes the validation and draft code reads. `files` models the `FileList`
of a file input; `options` the option values of a select; `labelText` the text
content of an associated `<label for=...>`; `dataRules`/`dataRequiredAttr` the
`data-rules`/`data-required` annotations read by `FormValidator`. -/

/-- Tag name of a form control. -/
inductive Tag where
  | input
  | select
  | textarea
  deriving DecidableEq, Repr

/-- Metadata of one file in a file input's `FileList`. -/
structure FileMeta where
  name : String
  size : Nat
  mime : String
  deriving DecidableEq, Repr

/-- One form control. -/
structure Field where
  name : String
  id : String
  ftype : String
  tag : Tag
  value : String
  required : Bool
  checked : Bool
  allowFuture : Bool
  labelText : Option String
  placeholder : String
  options : List String
  files : List FileMeta
  dataRules : List String
  dataRequiredAttr : Bool
  deriving DecidableEq, Repr

/-- A plain text field: the other attributes at their markup defaults. -/
def textField (name value : String) (required : Bool) : Field :=
  { name := name, id := "", ftype := "text", tag := Tag.input, value := value,
    required := required, checked := false, allowFuture := false,
    labelText := none, placeholder := "", options := [], files := [],
    dataRules := [], dataRequiredAttr := false }

/-- A form as the handlers see it: identity, `data-form-type`, its controls
and its submit button's label. -/
structure FormModel where
  id : String
  formType : String
  fields : List Field
  hasSubmitButton : Bool
  submitLabel : String
  deriving DecidableEq, Repr

/-- A per-field validation result `{ isValid, errors, warnings }`. -/
structure VResult where
  isValid : Bool
  errors : List String
  warnings : List String
  deriving DecidableEq, Repr

/-- The pristine result every validator starts from. -/
def emptyVR : VResult := ⟨true, [], []⟩

/-- `result.errors.push(msg); result.isValid = false`. -/
def addErr (r : VResult) (m : String) : VResult := ⟨false, r.errors ++ [m], r.warnings⟩

/-- `result.warnings.push(msg)`. -/
def addWarn (r : VResult) (m : String) : VResult := ⟨r.isValid, r.errors, r.warnings ++ [m]⟩

namespace FormValidator

/-! ### `FormValidator` (assets/js/form-validator.js) -/

/-- What `getRuleConfig` hands back for one rule name: an ordinary
`{test, message}` rule, or one of the parameterized rule *factories*
(`minLength`/`maxLength`/`pattern`) reached without or with an unusable
parameter — an object whose `test` member is not callable, so evaluating it
raises a `TypeError`. `getRuleConfig` returning `null` (unknown rule) is
`Option.none` at the call site. -/
inductive RuleSpec where
  | normal (test : String → Bool) (message : String)
  | crash

/-- `FormValidator.getRuleConfig` (form-validator.js lines 231–247): the
`rules` table first, then `medicalRules`, then `name:param` factories;
anything else is `null`. `pattern:param` receives a string where a `RegExp`
is expected, and a bare factory name yields the factory function itself; in
both cases the subsequent `ruleConfig.test(value)` call throws. -/
def getRuleConfig (rule : String) : Option RuleSpec :=
  match rule with
  | "required" => some (.normal requiredTest "This field is required")
  | "email" => some (.normal isValidEmail "Please enter a valid email address")
  | "phone" => some (.normal fvPhoneTest "Please enter a valid phone number")
  | "number" => some (.normal fvNumberTest "Please enter a valid number")
  | "positiveNumber" => some (.normal fvPositiveNumberTest "Please enter a positive number")
  | "integer" => some (.normal fvIntegerTest "Please enter a whole number")
  | "date" => some (.normal fvDateTest "Please enter a valid date")
  | "minLength" => some .crash
  | "maxLength" => some .crash
  | "pattern" => some .crash
  | "patientId" =>
      some (.normal patientIdRuleTest
        "Patient ID must be 2 letters followed by 6 digits (e.g., AB123456)")
  | "drugCode" => some (.normal drugCodeTest "Drug code must be 3-10 alphanumeric characters")
  | "batchNumber" =>
      some (.normal batchNumberTest
        "Batch number must be 4-20 alphanumeric characters with optional hyphens")
  | "concentration" =>
      some (.normal concentrationTest "Enter concentration with unit (e.g., 500mg, 2.5ml, 10%)")
  | r =>
      if r.toList.contains ':' then
        match splitChar ':' r with
        | rn :: param :: _ =>
            match rn with
            | "minLength" =>
                some (.normal (minLenTest param) ("Must be at least " ++ param ++ " characters long"))
            | "maxLength" =>
                some (.normal (maxLenTest param) ("Must not exceed " ++ param ++ " characters"))
            | "pattern" => some .crash
            | _ => none
        | _ => none
      else none

/-- `FormValidator.getFieldRules` (lines 210–229): `required` from the
attribute or `data-required="true"`, a type-based rule, then the
`data-rules` annotations in order. -/
def getFieldRules (f : Field) : List String :=
  (if f.required || f.dataRequiredAttr then ["required"] else []) ++
  (if f.ftype == "email" then ["email"] else []) ++
  (if f.ftype == "tel" then ["phone"] else []) ++
  (if f.ftype == "number" then ["number"] else []) ++
  f.dataRules

/-- The DOM error-state of one field that the library maintains: the
`is-invalid`/`is-valid` classes and the adjacent `.invalid-feedback` node
(`showFieldError` always clears before appending, so at most one node
exists). -/
structure FieldDom where
  isInvalidClass : Bool
  isValidClass : Bool
  feedback : Option String
  deriving DecidableEq, Repr

/-- `FormValidator.clearFieldError` (lines 269–276). -/
def clearFieldError (dom : FieldDom) : FieldDom := ⟨false, false, none⟩

/-- `FormValidator.showFieldError` (lines 249–260): clear, mark invalid,
append one feedback node. -/
def showFieldError (dom : FieldDom) (message : String) : FieldDom :=
  ⟨true, false, some message⟩

/-- `FormValidator.showFieldSuccess` (lines 262–267). -/
def showFieldSuccess (dom : FieldDom) : FieldDom := ⟨false, true, none⟩

/-- Evaluate one rule name against a value: `none` = pass (including the
unknown-rule "no-op pass"), `some msg` = fail, `Except.error` = the rule
evaluation itself threw a `TypeError`. -/
def runRule (rule : String) (v : String) : Except Unit (Option String) :=
  match getRuleConfig rule with
  | none => .ok none
  | some (.normal test msg) => .ok (if test v then none else some msg)
  | some .crash => .error ()

/-- The `rules.forEach` loop of `validateField` (lines 170–175): collect the
failing rules' messages in order; a thrown `TypeError` aborts the whole
call. -/
def collectErrors (rules : List String) (v : String) : Except Unit (List String) :=
  rules.foldl
    (fun acc rule =>
      match acc with
      | .error e => .error e
      | .ok errs =>
          match runRule rule v with
          | .error e => .error e
          | .ok none => .ok errs
          | .ok (some m) => .ok (errs ++ [m]))
    (.ok [])

/-- `FormValidator.validateField` (lines 158–184) acting on a field and its
current DOM error-state: returns the boolean result and the new DOM state, or
`Except.error` when a rule evaluation threw (in which case no DOM mutation
has happened yet). -/
def validateField (f : Field) (dom : FieldDom) : Except Unit (Bool × FieldDom) :=
  let value := jsTrim f.value
  let rules := getFieldRules f
  if value == "" && !(rules.contains "required") then
    .ok (true, clearFieldError dom)
  else
    match collectErrors rules value with
    | .error e => .error e
    | .ok errors =>
        match errors with
        | e :: _ => .ok (false, showFieldError dom e)
        | [] => .ok (true, showFieldSuccess dom)

/-- One invocation of `validateField` as the page observes it: on an
exception the DOM is left as it was. -/
def validateFieldRun (f : Field) (dom : FieldDom) : Except Unit Bool × FieldDom :=
  match validateField f dom with
  | .ok (b, dom') => (.ok b, dom')
  | .error e => (.error e, dom)

end FormValidator

namespace FormHandler

/-! ### `FormHandler` (assets/js/supabase-config.js, lines 210–1550) -/

/-- `config.validation.required` (line 227). -/
def configRequired : List String := ["patientId", "sampleId", "collectionDate"]

/-- `config.endpoints` (lines 216–223). -/
def configEndpoints : List (String × String) :=
  [("clinicForm", "/clinic-samples"), ("pharmacyForm", "/pharmacy-captures"),
   ("pharmacyCSV", "/pharmacy-records"), ("labForm", "/lab-results"),
   ("processingForm", "/sample-processing"), ("supportForm", "/support-requests")]

/-- `getEndpointForForm` (line 943): configured endpoint or `/forms/submit`. -/
def getEndpointForForm (formType : String) : String :=
  (configEndpoints.lookup formType).getD "/forms/submit"

/-- JS `field.name || field.id` (line 421). -/
def fieldNameOf (f : Field) : String := if f.name == "" then f.id else f.name

/-- `getFieldLabel` (lines 1094–1097):
`label?.textContent?.trim() || field.name || field.placeholder || 'Field'`. -/
def getFieldLabel (f : Field) : String :=
  let lt := ((f.labelText.map jsTrim).getD "")
  if lt != "" then lt
  else if f.name != "" then f.name
  else if f.placeholder != "" then f.placeholder
  else "Field"

/-- `isValidDate` (line 1053): the string must parse and equal the parsed
date's canonical `YYYY-MM-DD` rendering — i.e. it is a well-formed date-only
string. -/
def isValidDate (s : String) : Bool := jsDateParses s

/-- `isFutureDate` (line 1063) against the current day `now` (same encoding
as `jsDateVal?`); `Invalid Date` compares `false`. -/
def isFutureDate (now : Nat) (s : String) : Bool :=
  match jsDateVal? s with
  | some d => now < d
  | none => false

/-- `isValidTime` (line 1059): regex `^([01]?[0-9]|2[0-3]):[0-5][0-9]$`. -/
def isValidTime (s : String) : Bool :=
  match s.toList.splitOn ':' with
  | [h, m] =>
      (match m with
       | [m1, m2] => ('0' ≤ m1 && m1 ≤ '5') && isDigitC m2
       | _ => false) &&
      (match h with
       | [h1] => isDigitC h1
       | [h1, h2] => (h1 == '0' || h1 == '1') && isDigitC h2 || (h1 == '2' && '0' ≤ h2 && h2 ≤ '3')
       | _ => false)
  | _ => false

/-- `config.fileUpload.allowedTypes` (line 238). -/
def allowedTypes : List String :=
  ["image/jpeg", "image/png", "image/gif", "application/pdf", "text/csv"]

/-- `isPotenitallyDangerous` (line 1089). -/
def isPotenitallyDangerous (filename : String) : Bool :=
  [".exe", ".bat", ".cmd", ".scr", ".vbs", ".js", ".jar"].any
    (fun ext => endsWithStr (jsToLower filename) ext)

/-- `validateFileField` (lines 559–602). `config.fileUpload.maxFiles = 5`,
`maxSize = 10 * 1024 * 1024` whose `formatFileSize` rendering is `"10 MB"`. -/
def validateFileField (f : Field) : VResult :=
  if f.files.length == 0 then emptyVR
  else if decide (5 < f.files.length) then ⟨false, ["Maximum 5 files allowed"], []⟩
  else
    f.files.foldl
      (fun r file =>
        let r := if decide (10 * 1024 * 1024 < file.size) then
            addErr r ("File \"" ++ file.name ++ "\" is too large. Maximum size is 10 MB")
          else r
        let r := if !(allowedTypes.contains file.mime) then
            addErr r ("File \"" ++ file.name ++ "\" has an unsupported format")
          else r
        if isPotenitallyDangerous file.name then
          addWarn r ("File \"" ++ file.name ++ "\" has a potentially dangerous extension")
        else r)
      emptyVR

/-- The `switch (fieldType)` of `FormHandler.validateField` (lines 438–482):
type-specific validation of a (nonempty, trimmed) value. `now` is the current
day, an implicit input of the date branch. -/
def typeCheck (now : Nat) (f : Field) (value : String) : VResult :=
  if f.ftype == "email" then
    if !(isValidEmail value) then addErr emptyVR "Please enter a valid email address"
    else emptyVR
  else if f.ftype == "tel" then
    if !(isValidPhoneFH value) then addErr emptyVR "Please enter a valid phone number"
    else emptyVR
  else if f.ftype == "number" then
    if jsIsNaN value || jsLtZero value then
      addErr emptyVR "Please enter a valid positive number"
    else emptyVR
  else if f.ftype == "date" then
    if !(isValidDate value) then addErr emptyVR "Please enter a valid date"
    else if isFutureDate now value && !f.allowFuture then
      addWarn emptyVR "Date is in the future"
    else emptyVR
  else if f.ftype == "time" then
    if !(isValidTime value) then addErr emptyVR "Please enter a valid time"
    else emptyVR
  else if f.ftype == "file" then validateFileField f
  else emptyVR

/-- The field-name-specific checks of `FormHandler.validateField`
(lines 485–504): `patientId`, `sampleId`, `temperature`. -/
def nameChecks (fieldName value : String) (r1 : VResult) : VResult :=
  let r2 :=
    if fieldName == "patientId" && !(upperAlnum612 value) then
      addErr r1 "Patient ID must be 6-12 characters, letters and numbers only"
    else r1
  let r3 :=
    if fieldName == "sampleId" && !(sampleIdPat value) then
      addErr r2 "Sample ID must be 8-16 characters, letters, numbers, and hyphens only"
    else r2
  if fieldName == "temperature" then
    match parseFloatJs value with
    | some t =>
        if t < -80 || 100 < t then
          addWarn r3 "Temperature seems unusual for medical samples"
        else r3
    | none => r3
  else r3

/-- `FormHandler.validateField` (lines 413–507), translated step for step:
the required gate, the empty-and-optional short circuit, then the input-type
switch (`typeCheck`) followed by the name-specific checks (`nameChecks`). -/
def validateField (now : Nat) (f : Field) : VResult :=
  let value := jsTrim f.value
  let fieldName := fieldNameOf f
  let isRequired := f.required || configRequired.contains fieldName
  if isRequired && value == "" then
    addErr emptyVR (getFieldLabel f ++ " is required")
  else if value == "" then
    emptyVR
  else
    nameChecks fieldName value (typeCheck now f value)

/-- `form.querySelector('[name="nm"]')?.value`: the first matching control's
value, if any. -/
def queryVal (form : FormModel) (nm : String) : Option String :=
  (form.fields.find? (fun f => f.name == nm)).map Field.value

/-- `validateCrossFields` (lines 514–552): start/end date order,
collection/processing time order (a plain string comparison in the source),
and the patient-id/sample-id prefix rule via `substring(0, 3)` /
`startsWith`. -/
def validateCrossFields (form : FormModel) : Bool × List String :=
  let e1 :=
    match queryVal form "startDate", queryVal form "endDate" with
    | some a, some b =>
        if a != "" && b != "" && jsDateGt a b then ["Start date cannot be after end date"]
        else []
    | _, _ => []
  let e2 :=
    match queryVal form "collectionTime", queryVal form "processingTime" with
    | some a, some b =>
        if a != "" && b != "" && jsStrGt a b then
          ["Processing time cannot be before collection time"]
        else []
    | _, _ => []
  let e3 :=
    match queryVal form "patientId", queryVal form "sampleId" with
    | some p, some s =>
        if p != "" && s != "" && !(startsWithStr s (String.mk (p.toList.take 3))) then
          ["Sample ID should start with patient ID prefix"]
        else []
    | _, _ => []
  let errors := e1 ++ e2 ++ e3
  (errors.isEmpty, errors)

/-- `FormHandler.validateForm` (lines 373–406): per-field results aggregated
in document order, then cross-field errors; `isValid` iff no errors. The
per-field `showFieldError`/`clearFieldError` DOM marking (lines 388–390) has
no bearing on the submission-level claims and is modelled separately for the
`FormValidator` library, whose claim is about that DOM contract. -/
def validateForm (now : Nat) (form : FormModel) : VResult :=
  let per :=
    form.fields.foldl
      (fun (acc : List String × List String) f =>
        let fr := validateField now f
        ((if !fr.isValid then acc.1 ++ fr.errors else acc.1),
         (if decide (0 < fr.warnings.length) then acc.2 ++ fr.warnings else acc.2)))
      ([], [])
  let cf := validateCrossFields form
  let errors := per.1 ++ (if !cf.1 then cf.2 else [])
  ⟨errors.isEmpty, errors, per.2⟩

end FormHandler

namespace FormHandler

/-! ### Draft store (supabase-config.js, lines 764–936)

`prepareFormData` walks `new FormData(form)`; a `FormData` entry list holds
one `(name, value)` pair per named, non-file control, where checkboxes and
radios contribute their value only while checked. (File entries and
button-type inputs are outside the modelled fragment; the draft claim is
about non-file fields.) Draft values are strings, booleans, arrays of
strings, or the `_metadata` object that line 928 assigns into the data
object; `JSON.stringify`/`JSON.parse` round-trips all of them identically,
so the model stores them structurally. -/

/-- A value stored under one key of a prepared form-data object. `metaObj`
is the `_metadata` object of line 928; of its components only the
deterministic `formType` is carried, because the rest (timestamp, userAgent,
url) are environment values and no modelled observable depends on an
object's contents — its truthiness is `true` and its string coercion is
`"[object Object]"` regardless. -/
inductive FVal where
  | str (s : String)
  | boolF (b : Bool)
  | arr (l : List String)
  | metaObj (formType : String)
  deriving DecidableEq, Repr

/-- JS truthiness of a stored value (`if (data[key])`, `field.checked = value`):
objects (arrays included) are truthy. -/
def FVal.truthy : FVal → Bool
  | .str s => s != ""
  | .boolF b => b
  | .arr _ => true
  | .metaObj _ => true

/-- JS string coercion of a stored value (assignment to `field.value`). -/
def FVal.asString : FVal → String
  | .str s => s
  | .boolF b => if b then "true" else "false"
  | .arr l => joinWith "," l
  | .metaObj _ => "[object Object]"

/-- The `FormData` entry a single control contributes, if any. -/
def entryOf (f : Field) : Option (String × String) :=
  if f.name == "" then none
  else if f.ftype == "file" then none
  else if f.ftype == "checkbox" || f.ftype == "radio" then
    if f.checked then some (f.name, f.value) else none
  else some (f.name, f.value)

/-- `new FormData(form).entries()` in document order. -/
def formDataEntries (fs : List Field) : List (String × String) := fs.filterMap entryOf

/-- One step of the `for (const [key, value] of formData.entries())` loop
(lines 904–915): a truthy existing value becomes/extends an array, otherwise
the key is (re)assigned. Boolean and object values are only added *after*
this fold (unchecked checkboxes, `_metadata`), so those arms are unreachable
during it. -/
def pushEntry : List (String × FVal) → String → String → List (String × FVal)
  | [], k, s => [(k, FVal.str s)]
  | (k', v) :: rest, k, s =>
      if k' == k then
        (if v.truthy then
           match v with
           | FVal.arr l => (k', FVal.arr (l ++ [s]))
           | FVal.str old => (k', FVal.arr [old, s])
           | FVal.boolF _ => (k', FVal.str s)
           | FVal.metaObj _ => (k', FVal.str s)
         else (k', FVal.str s)) :: rest
      else (k', v) :: pushEntry rest k s

/-- Accumulate all `FormData` entries into the data object. -/
def buildData (entries : List (String × String)) : List (String × FVal) :=
  entries.foldl (fun d kv => pushEntry d kv.1 kv.2) []

/-- The `includeDrafts` pass (lines 918–925): every checkbox whose name is not
yet a key is recorded as `false`. -/
def addUncheckedBoxes (data : List (String × FVal)) (fs : List Field) : List (String × FVal) :=
  fs.foldl
    (fun d f =>
      if f.ftype == "checkbox" && (d.find? (fun e => e.1 == f.name)).isNone then
        d ++ [(f.name, FVal.boolF false)]
      else d)
    data

/-- JS property assignment `data[k] = v` on the data object: overwrite in
place when the key exists (keeping its insertion position), append
otherwise. -/
def setVal : List (String × FVal) → String → FVal → List (String × FVal)
  | [], k, v => [(k, v)]
  | (k', v') :: rest, k, v =>
      if k' == k then (k', v) :: rest else (k', v') :: setVal rest k v

/-- `prepareFormData` (lines 899–936): the entry fold, the unchecked-checkbox
pass when `includeDrafts`, then `data._metadata = {...}` (line 928) — a plain
property assignment, so it overwrites the entry of any form control that is
itself named `_metadata`. -/
def prepareFormData (form : FormModel) (includeDrafts : Bool) : List (String × FVal) :=
  let data := buildData (formDataEntries form.fields)
  let data := if includeDrafts then addUncheckedBoxes data form.fields else data
  setVal data "_metadata"
    (FVal.metaObj (if form.formType == "" then "generic" else form.formType))

/-- `isFormEmpty` (lines 1074–1079): no entry under a key other than
`_metadata` has a value different from `''` and `false`. -/
def isFormEmpty (data : List (String × FVal)) : Bool :=
  data.all (fun e => e.1 == "_metadata" || e.2 == FVal.str "" || e.2 == FVal.boolF false)

/-- A stored draft `{ timestamp, data, url }` (lines 774–778). -/
structure DraftData where
  timestamp : Nat
  data : List (String × FVal)
  url : String
  deriving DecidableEq, Repr

/-- The browser's localStorage, restricted to draft entries. -/
def Storage := List (String × DraftData)

/-- `localStorage.setItem` (unique keys, last write wins). -/
def setItem : List (String × DraftData) → String → DraftData → List (String × DraftData)
  | [], k, v => [(k, v)]
  | (k', v') :: rest, k, v =>
      if k' == k then (k', v) :: rest else (k', v') :: setItem rest k v

/-- `localStorage.getItem`. -/
def getItem (st : List (String × DraftData)) (k : String) : Option DraftData :=
  st.lookup k

/-- `form.id || form.dataset.formType || 'form'` (line 766). -/
def formIdOf (form : FormModel) : String :=
  if form.id != "" then form.id
  else if form.formType != "" then form.formType
  else "form"

/-- The storage key `config.autoSave.storagePrefix + formId` (line 780). -/
def draftKey (form : FormModel) : String := "meditrack_draft_" ++ formIdOf form

/-- `saveDraft` (lines 764–787): snapshot with `includeDrafts = true`, skipped
when the form is judged empty. -/
def saveDraft (st : List (String × DraftData)) (form : FormModel) (now : Nat)
    (url : String) : List (String × DraftData) :=
  let fd := prepareFormData form true
  if isFormEmpty fd then st
  else setItem st (draftKey form) ⟨now, fd, url⟩

/-- Unchecking the rest of a radio group after one member is checked — the
browser's radio-group invariant; the checked member is the group's first
occurrence (it is the `querySelector` match), so the rest lies after it. -/
def uncheckRadios (k : String) : List Field → List Field
  | [] => []
  | g :: rest =>
      (if g.name == k && g.ftype == "radio" then { g with checked := false } else g) ::
        uncheckRadios k rest

/-- The assignment `restoreDraft` performs on the matched control (lines
862–872): `checked` for checkbox/radio, `value` for selects (which fall back
to `''` when no option carries the assigned value) and for everything else. -/
def updateFieldFromDraft (f : Field) (v : FVal) : Field :=
  if f.ftype == "checkbox" || f.ftype == "radio" then { f with checked := v.truthy }
  else if f.tag == Tag.select then
    { f with value := if f.options.contains v.asString then v.asString else "" }
  else { f with value := v.asString }

/-- Apply one draft entry: `form.querySelector('[name="k"]')` finds the first
control named `k`; absent names (such as `_metadata`) are skipped. -/
def applyDraftEntry : List Field → String → FVal → List Field
  | [], _, _ => []
  | f :: rest, k, v =>
      if f.name == k then
        let f' := updateFieldFromDraft f v
        if f.ftype == "radio" && v.truthy then f' :: uncheckRadios k rest
        else f' :: rest
      else f :: applyDraftEntry rest k v

/-- `restoreDraft` (lines 856–881): populate the form from the draft's
entries in stored order. -/
def restoreDraft (form : FormModel) (dd : DraftData) : FormModel :=
  { form with
    fields := dd.data.foldl (fun fs kv => applyDraftEntry fs kv.1 kv.2) form.fields }

end FormHandler

namespace FormHandler

/-! ### CSV bulk import (supabase-config.js, lines 1295–1520) -/

/-- One parsed CSV record: a header-keyed object (later duplicate headers
overwrite earlier ones, as JS property assignment does). -/
def CsvRecord := List (String × String)

/-- JS object property assignment preserving first-insertion position. -/
def objInsert : List (String × String) → String → String → List (String × String)
  | [], k, v => [(k, v)]
  | (k', v') :: rest, k, v =>
      if k' == k then (k', v) :: rest else (k', v') :: objInsert rest k v

/-- Parsed CSV data `{ headers, records }`. -/
structure CsvData where
  headers : List String
  records : List (List (String × String))
  deriving DecidableEq, Repr

/-- `readCSVFile`'s parsing step (lines 1383–1406): split on `\n`, drop blank
lines, lower-case/trim the header names, keep only rows whose field count
matches the header count. -/
def readCSVFile (text : String) : Except String CsvData :=
  let lines := (splitChar '\n' text).filter (fun l => !(jsTrim l == ""))
  match lines with
  | [] => .error "CSV file must contain at least a header row and one data row"
  | [_] => .error "CSV file must contain at least a header row and one data row"
  | h :: rest =>
      let headers := (splitChar ',' h).map (fun s => jsToLower (jsTrim s))
      let records := rest.filterMap (fun line =>
        let values := (splitChar ',' line).map jsTrim
        if values.length == headers.length then
          some ((headers.zip values).foldl (fun o kv => objInsert o kv.1 kv.2) [])
        else none)
      .ok ⟨headers, records⟩

/-- JS `!record.medicine || record.medicine.trim() === ''`. -/
def medicineMissing (r : List (String × String)) : Bool :=
  match r.lookup "medicine" with
  | none => true
  | some m => m == "" || jsTrim m == ""

/-- `validateCSVData` (lines 1423–1453): required columns first, then per-row
checks in row order. -/
def validateCSVData (d : CsvData) : Bool × List String :=
  let colErrs :=
    (["medicine", "availability", "datestocked"]).filterMap (fun c =>
      if d.headers.contains c then none else some ("Missing required column: " ++ c))
  let rowErrs :=
    d.records.enum.flatMap (fun ir =>
      let row := toString (ir.1 + 2)
      let r := ir.2
      (if medicineMissing r then ["Row " ++ row ++ ": Medicine name is required"] else []) ++
      (match r.lookup "availability" with
       | some a =>
           if a != "" && !(["true", "false", "1", "0", "yes", "no"].contains (jsToLower a)) then
             ["Row " ++ row ++ ": Availability must be true/false, 1/0, or yes/no"]
           else []
       | none => []) ++
      (match r.lookup "datestocked" with
       | some dt =>
           if dt != "" && !(jsDateParses dt) then
             ["Row " ++ row ++ ": Invalid date format for datestocked"]
           else []
       | none => []))
  let errors := colErrs ++ rowErrs
  (errors.isEmpty, errors)

/-- `parseBoolean` (lines 1516–1520) on the looked-up (possibly absent)
availability value. -/
def parseBoolean (v : Option String) : Bool :=
  match v with
  | none => false
  | some s =>
      if s == "" then false
      else ["true", "1", "yes", "available"].contains (jsTrim (jsToLower s))

/-- The payload `processCSVRecords` posts for one record (lines 1474–1478). -/
structure CsvPayload where
  medicine : Option String
  availability : Bool
  datestocked : Option String
  deriving DecidableEq, Repr

/-- The import summary `{successful, failed, errors}`. -/
structure CsvResults where
  successful : Nat
  failed : Nat
  errors : List String
  deriving DecidableEq, Repr

/-- `processCSVRecords` (lines 1462–1509): one `ApiHelper.post` per record.
`ApiHelper.post` (lines 750–808) either throws on a backend error or returns
`{ data }` with no `success` property, so line 1483's `response.success` is
undefined and every row is tallied as failed (`'Unknown error'` when the post
returned). The claims below depend only on the posted payloads. -/
def processCSVRecords (records : List (List (String × String))) : CsvResults × List CsvPayload :=
  records.enum.foldl
    (fun (acc : CsvResults × List CsvPayload) ir =>
      let payload : CsvPayload :=
        ⟨ir.2.lookup "medicine", parseBoolean (ir.2.lookup "availability"),
         ir.2.lookup "datestocked"⟩
      ({ successful := acc.1.successful, failed := acc.1.failed + 1,
         errors := acc.1.errors ++ ["Row " ++ toString (ir.1 + 2) ++ ": Unknown error"] },
       acc.2 ++ [payload]))
    (⟨0, 0, []⟩, [])

/-- Outcome of `handleCSVUpload` (lines 1295–1364): an exception before any
record is posted, or a completed run with its summary and posted payloads. -/
inductive CsvUploadResult where
  | failed (errMsg : String)
  | completed (res : CsvResults) (posts : List CsvPayload)
  deriving DecidableEq, Repr

/-- The payloads a CSV upload posted to the backend. -/
def csvPostsOf : CsvUploadResult → List CsvPayload
  | .failed _ => []
  | .completed _ posts => posts

/-- `handleCSVUpload` for a selected file `(name, text)` (`none` = no file):
missing-file and extension guards, parse, validate — any failure throws
before `processCSVRecords` runs — then per-record submission. -/
def handleCSVUpload (file : Option (String × String)) : CsvUploadResult :=
  match file with
  | none => .failed "Please select a CSV file to upload"
  | some (name, text) =>
      if !(endsWithStr (jsToLower name) ".csv") then
        .failed "Please upload a valid CSV file"
      else
        match readCSVFile text with
        | .error m => .failed ("Failed to parse CSV file: " ++ m)
        | .ok d =>
            let v := validateCSVData d
            if !v.1 then .failed ("CSV validation failed: " ++ joinWith ", " v.2)
            else
              let pr := processCSVRecords d.records
              .completed pr.1 pr.2

end FormHandler

namespace FormHandler

/-! ### Submission orchestration (supabase-config.js, lines 275–366, 1147–1162)

`submitForm` is modelled as the effect trace one invocation produces. Two
facts about the source fix the failure paths:

* `ApiHelper.post` (lines 750–808) either throws (backend error) or returns
  `{ data: ... }` — an object with **no** `success` property — so line 315's
  `if (!response.success)` throws `'Form submission failed'` even when the
  insert succeeded.
* The catch block (lines 344–365) begins with
  `LoadingManager.hideSpinner(loadingId)`, but `loadingId` (and
  `originalText`, line 351) are `const`-bindings scoped to the `try` block;
  evaluating them in the catch raises a `ReferenceError`, which propagates
  out of `submitForm` before the button is re-enabled or any notification is
  shown.
-/

/-- How one `submitForm` call ends: a returned result object, or a thrown
value that the caller (the `bindForms` submit listener) never catches. -/
inductive Outcome where
  | returned (success : Bool)
  | thrown (msg : String)
  deriving DecidableEq, Repr

/-- The exception escaping `submitForm`'s catch block. -/
def refErrLoadingId : String := "ReferenceError: loadingId is not defined"

/-- Observable effects of one `submitForm` invocation. `apiPosts` lists the
endpoints passed to `ApiHelper.post`; `focused` the fields focused;
`buttonDisabled`/`buttonLabel` the submit control's final state;
`draftCleared` whether `clearDraft` ran; `notifications` the user-facing
messages surfaced. -/
structure SubmitTrace where
  apiPosts : List String
  buttonDisabled : Bool
  buttonLabel : String
  draftCleared : Bool
  notifications : List String
  focused : List String
  outcome : Outcome
  deriving DecidableEq, Repr

/-- Environment of one submission: the current day, whether a pending file
upload fails, and the CSV file selected in the form (for pharmacy CSV
forms). -/
structure SubmitEnv where
  now : Nat
  uploadsFail : Bool
  csvFile : Option (String × String)
  deriving DecidableEq, Repr

/-- `hasFileUploads` (line 1070). -/
def hasFileUploads (form : FormModel) : Bool :=
  form.fields.any (fun f => f.ftype == "file")

/-- The trace of reaching the catch block with the given effects already
performed: its first statement evaluates the try-scoped `loadingId`, so the
catch rethrows a `ReferenceError` — no notification, no button reset, no
draft change. -/
def catchTrace (posts : List String) (disabled : Bool) (label : String) : SubmitTrace :=
  ⟨posts, disabled, label, false, [], [], .thrown refErrLoadingId⟩

/-- The success toast of `handleCSVUpload` (lines 1340–1345). -/
def csvToastMsg (res : CsvResults) : String :=
  "Successfully processed " ++ toString res.successful ++ " records (" ++
    toString res.failed ++ " failed)"

/-- `FormHandler.submitForm` (lines 275–366) as an effect trace. The
synchronous prefix resolves the form type and endpoint and disables the
submit control; then validation, the CSV branch, file uploads, and the
backend call follow the source's control flow, with every caught error
ending in `catchTrace`. `FormHandler.validateForm` never focuses a field, and
no other statement of `submitForm` does. -/
def submitForm (env : SubmitEnv) (form : FormModel) : SubmitTrace :=
  let formType := if form.formType == "" then "generic" else form.formType
  let endpoint := getEndpointForForm formType
  let disabled := form.hasSubmitButton
  let label := if form.hasSubmitButton then "Submitting..." else form.submitLabel
  let vr := validateForm env.now form
  if !vr.isValid then
    catchTrace [] disabled label
  else if formType == "pharmacyCSV" then
    match handleCSVUpload env.csvFile with
    | .completed res posts =>
        -- `return await this.handleCSVUpload(...)` returns before the
        -- clear-draft/button-reset statements of the main path run
        ⟨posts.map (fun _ => endpoint), disabled, label, false,
         [csvToastMsg res], [], .returned true⟩
    | .failed _ => catchTrace [] disabled label
  else if hasFileUploads form && env.uploadsFail then
    catchTrace [] disabled label
  else
    -- ApiHelper.post runs; whether it throws or returns `{ data }` without a
    -- `success` field, line 315 throws and the catch block takes over
    catchTrace [endpoint] disabled label

/-- State of the page within one synchronous tick: the submit control's
`disabled` flag and the traces of the submissions started so far. -/
structure PageRun where
  btnDisabled : Bool
  traces : List SubmitTrace
  deriving DecidableEq, Repr

/-- One submit trigger. An activation of a disabled submit control dispatches
no `submit` event (the DOM environment of §6), so the trigger is dropped;
otherwise the listener `bindForms` installed (lines 1150–1154) calls
`submitForm`, whose synchronous prefix disables the control before its first
`await`, i.e. before the tick can deliver another trigger. -/
def triggerSubmit (env : SubmitEnv) (form : FormModel) (s : PageRun) : PageRun :=
  if s.btnDisabled then s
  else ⟨form.hasSubmitButton, s.traces ++ [submitForm env form]⟩

/-- Total number of `ApiHelper.post` calls made by the submissions of a run. -/
def totalApiPosts (s : PageRun) : Nat :=
  (s.traces.map (fun t => t.apiPosts.length)).sum

end FormHandler

/-- Decidable equality for `Except` results (used to evaluate the CSV
parser's output on concrete inputs). -/
instance {e a : Type} [DecidableEq e] [DecidableEq a] : DecidableEq (Except e a)
  | .ok x, .ok y =>
      if h : x = y then isTrue (by rw [h]) else isFalse (by intro hh; cases hh; exact h rfl)
  | .error x, .error y =>
      if h : x = y then isTrue (by rw [h]) else isFalse (by intro hh; cases hh; exact h rfl)
  | .ok _, .error _ => isFalse (by intro hh; cases hh)
  | .error _, .ok _ => isFalse (by intro hh; cases hh)

/-! ## Concrete example inputs -/

/-- A plain submission environment. -/
def envPlain : FormHandler.SubmitEnv := ⟨0, false, none⟩

/-- A clinic form whose single required field is empty. -/
def c1Form : FormModel :=
  ⟨"clinicSample", "clinicForm", [textField "notes" "" true], true, "Submit"⟩

/-- A support form that validates successfully. -/
def notesForm : FormModel :=
  ⟨"noteForm", "supportForm", [textField "notes" "hello" false], true, "Send"⟩

/-- First member of a radio group (unchecked). -/
def radioOral : Field := { textField "route" "oral" false with ftype := "radio" }

/-- Second member of the radio group (the checked one). -/
def radioIV : Field :=
  { textField "route" "iv" false with ftype := "radio", checked := true }

/-- A form whose radio group has its second member selected. -/
def radioForm : FormModel :=
  ⟨"routeForm", "clinicForm", [radioOral, radioIV], true, "Save"⟩

/-- A text field carrying draft content. -/
def draftNotes : Field := textField "notes" "hello draft" false

/-- A checked checkbox with the default `on` value. -/
def draftBox : Field :=
  { textField "urgent" "on" false with ftype := "checkbox", checked := true }

/-- A lab form used to exercise the draft round trip. -/
def draftForm : FormModel :=
  ⟨"labDraft", "labForm", [draftNotes, draftBox], true, "Save"⟩

/-- CSV file content with the full header and one valid row. -/
def csvGoodText : String := "medicine,availability,datestocked\nAspirin,yes,2024-01-01"

/-- CSV file content whose header lacks the `medicine` column. -/
def csvBadText : String := "drug,availability,datestocked\nAspirin,yes,2024-01-01"

/-- A number input holding a negative value. -/
def negQty : Field := { textField "quantity" "-5" false with ftype := "number" }

/-- An optional field with whitespace-only content and an attached
`minLength:5` rule (which rejects the empty string when evaluated). -/
def optComments : Field :=
  { textField "comments" " " false with dataRules := ["minLength:5"] }

/-! ## Claim C2 — error categorization -/

/-- C2, counterexample. The claim asserts that a standardized error with
`code = 400` and message `"invalid"` classifies as VALIDATION; the `[400,600)`
API branch runs first (error-manager.js line 290) and returns API, so the
VALIDATION branch's `code === 400` test is unreachable for such errors. -/
theorem c2_counterexample :
    categorizeError ⟨"invalid", ErrCode.num 400, "CustomError"⟩ = "API" ∧
    categorizeError ⟨"invalid", ErrCode.num 400, "CustomError"⟩ ≠ "VALIDATION" := by
  decide

/-- C2 (amended): a message containing `"network"` (case-insensitively)
always classifies as NETWORK; `code = 401` classifies as AUTH provided none
of the earlier network heuristics fire (type `NetworkError`, or a message
containing `network`/`connection`/`timeout`); and `code = 400` with message
`"invalid"` classifies as API (not VALIDATION), because the `[400,600)` API
branch precedes the validation branch. -/
theorem c2_error_categorization :
    (∀ e : ErrObj, containsSub (jsToLower e.message) "network" = true →
      categorizeError e = "NETWORK") ∧
    (∀ e : ErrObj, e.code = ErrCode.num 401 →
      (e.type == "NetworkError") = false →
      containsSub (jsToLower e.message) "network" = false →
      containsSub (jsToLower e.message) "connection" = false →
      containsSub (jsToLower e.message) "timeout" = false →
      categorizeError e = "AUTH") ∧
    (∀ e : ErrObj, e.code = ErrCode.num 400 → e.message = "invalid" →
      (e.type == "NetworkError") = false →
      categorizeError e = "API") := by
  refine ⟨?_, ?_, ?_⟩
  · intro e h
    simp [categorizeError, h]
  · intro e h1 h2 h3 h4 h5
    obtain ⟨msg, code, ty⟩ := e
    simp only at h1 h2 h3 h4 h5
    subst h1
    simp [categorizeError, h2, h3, h4, h5, ErrCode.isNetworkErrorCode, ErrCode.inApiRange,
      ErrCode.eqNum]
  · intro e h1 h2 h3
    obtain ⟨msg, code, ty⟩ := e
    simp only at h1 h2 h3
    subst h1; subst h2
    have hapi : ErrCode.inApiRange (ErrCode.num 400) = true := by decide
    have hm1 : containsSub (jsToLower "invalid") "network" = false := by decide
    have hm2 : containsSub (jsToLower "invalid") "connection" = false := by decide
    have hm3 : containsSub (jsToLower "invalid") "timeout" = false := by decide
    have hm4 : containsSub (jsToLower "invalid") "unauthorized" = false := by decide
    have hm5 : containsSub (jsToLower "invalid") "forbidden" = false := by decide
    have hm6 : containsSub (jsToLower "invalid") "permission" = false := by decide
    have hm7 : containsSub (jsToLower "invalid") "access denied" = false := by decide
    have he1 : ErrCode.eqNum (ErrCode.num 400) 401 = false := by decide
    have he2 : ErrCode.eqNum (ErrCode.num 400) 403 = false := by decide
    have hn : ErrCode.isNetworkErrorCode (ErrCode.num 400) = false := by decide
    simp [categorizeError, h3, hapi, hm1, hm2, hm3, hm4, hm5, hm6, hm7, he1, he2, hn]

/-- C2, witness: the amended theorem applied at concrete error objects. -/
theorem c2_error_categorization_witness :
    categorizeError ⟨"Network request failed", ErrCode.str "X", "Error"⟩ = "NETWORK" ∧
    categorizeError ⟨"Unauthorized", ErrCode.num 401, "Error"⟩ = "AUTH" ∧
    categorizeError ⟨"invalid", ErrCode.num 400, "CustomError"⟩ = "API" :=
  ⟨c2_error_categorization.1 ⟨"Network request failed", ErrCode.str "X", "Error"⟩ (by decide),
   c2_error_categorization.2.1 ⟨"Unauthorized", ErrCode.num 401, "Error"⟩ rfl (by decide)
     (by decide) (by decide) (by decide),
   c2_error_categorization.2.2 ⟨"invalid", ErrCode.num 400, "CustomError"⟩ rfl rfl (by decide)⟩

/-! ## Claim C3 — the patient-id rule -/

/-- Helper: a string accepted by `medicalRules.patientId` (two uppercase
letters then six digits) also matches `^[A-Z0-9]{6,12}$`. -/
theorem patientIdRuleTest_implies_upperAlnum612 (v : String)
    (h : patientIdRuleTest v = true) : upperAlnum612 v = true := by
  simp only [patientIdRuleTest, Bool.and_eq_true, beq_iff_eq, List.all_eq_true] at h
  obtain ⟨⟨hlen, hup⟩, hdig⟩ := h
  simp only [upperAlnum612, Bool.and_eq_true, decide_eq_true_eq, List.all_eq_true]
  refine ⟨⟨by omega, by omega⟩, ?_⟩
  intro c hc
  have hc' : c ∈ List.take 2 v.toList ++ List.drop 2 v.toList := by
    rw [List.take_append_drop]; exact hc
  rcases List.mem_append.mp hc' with h1 | h1
  · simp [isUpperOrDigit, hup c h1]
  · simp [isUpperOrDigit, hdig c h1]

/-- C3, counterexample. The claim asserts every string matching
`^[A-Z0-9]{6,12}$` is reported valid by the patient-id rule; `"A1B2C3"`
matches that pattern but `medicalRules.patientId` (regex `^[A-Z]{2}\d{6}$`,
form-validator.js line 54) rejects it. -/
theorem c3_counterexample :
    upperAlnum612 "A1B2C3" = true ∧ patientIdRuleTest "A1B2C3" = false := by
  decide

/-- C3 (amended): the `patient-id` registry rule accepts exactly the strings
matching `^[A-Z]{2}\d{6}$` (two letters + six digits, as §4.1 states), so
every string failing the spec's `^[A-Z0-9]{6,12}$` pattern is reported
invalid — but not every string matching that pattern is reported valid. -/
theorem c3_patient_id_rule (v : String) (h : upperAlnum612 v = false) :
    patientIdRuleTest v = false := by
  cases hb : patientIdRuleTest v with
  | false => rfl
  | true => rw [patientIdRuleTest_implies_upperAlnum612 v hb] at h; cases h

/-- C3, witness: the amended theorem applied at `"abc"`, which fails the
`^[A-Z0-9]{6,12}$` pattern. -/
theorem c3_patient_id_rule_witness :
    upperAlnum612 "abc" = false ∧ patientIdRuleTest "abc" = false :=
  ⟨by decide, c3_patient_id_rule "abc" (by decide)⟩

/-! ## Claim C4 — CSV importer -/

/-- C4 (confirmed): the well-formed CSV file parses to one record, passes
`validateCSVData`, and is processed into exactly one posted payload whose
availability is the boolean `true`; the file whose header lacks `medicine`
fails `validateCSVData` with an error naming the missing column, and
`handleCSVUpload` throws before `processCSVRecords` runs, so nothing is
posted. -/
theorem c4_csv_importer :
    FormHandler.readCSVFile csvGoodText =
      Except.ok ⟨["medicine", "availability", "datestocked"],
        [[("medicine", "Aspirin"), ("availability", "yes"), ("datestocked", "2024-01-01")]]⟩ ∧
    (FormHandler.validateCSVData
      ⟨["medicine", "availability", "datestocked"],
        [[("medicine", "Aspirin"), ("availability", "yes"), ("datestocked", "2024-01-01")]]⟩).1
      = true ∧
    (FormHandler.processCSVRecords
      [[("medicine", "Aspirin"), ("availability", "yes"), ("datestocked", "2024-01-01")]]).2 =
      [{ medicine := some "Aspirin", availability := true, datestocked := some "2024-01-01" }] ∧
    (FormHandler.validateCSVData
      ⟨["drug", "availability", "datestocked"],
        [[("drug", "Aspirin"), ("availability", "yes"), ("datestocked", "2024-01-01")]]⟩).1
      = false ∧
    "Missing required column: medicine" ∈
      (FormHandler.validateCSVData
        ⟨["drug", "availability", "datestocked"],
          [[("drug", "Aspirin"), ("availability", "yes"), ("datestocked", "2024-01-01")]]⟩).2 ∧
    FormHandler.readCSVFile csvBadText =
      Except.ok ⟨["drug", "availability", "datestocked"],
        [[("drug", "Aspirin"), ("availability", "yes"), ("datestocked", "2024-01-01")]]⟩ ∧
    FormHandler.csvPostsOf (FormHandler.handleCSVUpload (some ("inventory.csv", csvBadText))) =
      [] ∧
    FormHandler.handleCSVUpload (some ("inventory.csv", csvBadText)) =
      FormHandler.CsvUploadResult.failed
        "CSV validation failed: Missing required column: medicine, Row 2: Medicine name is required" := by
  refine ⟨by decide, by decide, by decide, by decide, by decide, by decide, by decide, by decide⟩

/-! ## Claim C8 — empty optional fields short-circuit -/

/-- C8 (confirmed): a field that is not required (neither by attribute nor by
the handler's configured list, resp. with no `required` rule resolved) and
whose trimmed value is empty validates to the pristine result without any
other rule being evaluated — in particular the result is independent of
whatever rules are attached, including ones that would reject the empty
string. -/
theorem c8_optional_empty_short_circuit :
    (∀ (now : Nat) (f : Field),
      (f.required || FormHandler.configRequired.contains (FormHandler.fieldNameOf f)) = false →
      jsTrim f.value = "" →
      FormHandler.validateField now f = emptyVR) ∧
    (∀ (f : Field) (dom : FormValidator.FieldDom),
      jsTrim f.value = "" →
      (FormValidator.getFieldRules f).contains "required" = false →
      FormValidator.validateFieldRun f dom =
        (Except.ok true, FormValidator.clearFieldError dom)) := by
  constructor
  · intro now f h1 h2
    rcases Bool.or_eq_false_iff.mp h1 with ⟨hr, hc⟩
    have hc' : FormHandler.fieldNameOf f ∉ FormHandler.configRequired := by simpa using hc
    simp [FormHandler.validateField, h2, hr, hc']
  · intro f dom h1 h2
    have h2' : "required" ∉ FormValidator.getFieldRules f := by simpa using h2
    simp [FormValidator.validateFieldRun, FormValidator.validateField, h1, h2']

/-- C8, witness: both short-circuits applied to a whitespace-only optional
field carrying a `minLength:5` rule. -/
theorem c8_optional_empty_short_circuit_witness :
    FormHandler.validateField 0 optComments = emptyVR ∧
    FormValidator.validateFieldRun optComments ⟨true, false, some "old"⟩ =
      (Except.ok true, FormValidator.clearFieldError ⟨true, false, some "old"⟩) :=
  ⟨c8_optional_empty_short_circuit.1 0 optComments (by decide) (by decide),
   c8_optional_empty_short_circuit.2 optComments ⟨true, false, some "old"⟩
     (by decide) (by decide)⟩

/-! ## Claim C9 — field validation is idempotent -/

/-- Helper: `FormValidator.validateField`'s outcome does not depend on the
incoming DOM state — `clearFieldError`, `showFieldError` and
`showFieldSuccess` replace the state wholesale. -/
theorem validateField_dom_const (f : Field) (d d' : FormValidator.FieldDom) :
    FormValidator.validateField f d = FormValidator.validateField f d' := by
  simp only [FormValidator.validateField, FormValidator.clearFieldError,
    FormValidator.showFieldError, FormValidator.showFieldSuccess]

/-- C9 (confirmed): running the field validator twice on the same field with
an unchanged value yields the identical result (also when a rule evaluation
throws) and the identical DOM error-state — classes and the at-most-one
feedback node — after the second run as after the first. -/
theorem c9_field_validator_idempotent (f : Field) (dom : FormValidator.FieldDom) :
    (FormValidator.validateFieldRun f (FormValidator.validateFieldRun f dom).2).1 =
      (FormValidator.validateFieldRun f dom).1 ∧
    (FormValidator.validateFieldRun f (FormValidator.validateFieldRun f dom).2).2 =
      (FormValidator.validateFieldRun f dom).2 := by
  cases h : FormValidator.validateField f dom with
  | ok p =>
      obtain ⟨b, d'⟩ := p
      have h2 : FormValidator.validateField f d' = .ok (b, d') :=
        (validateField_dom_const f d' dom).trans h
      simp [FormValidator.validateFieldRun, h, h2]
  | error e =>
      simp [FormValidator.validateFieldRun, h]

/-! ## Claim C10 — negative numbers rejected at the handler interface -/

/-- Helper: the name-specific checks only ever append errors and warnings, so
they preserve invalidity and any already-collected error message. -/
theorem nameChecks_preserves (fieldName value msg : String) (r : VResult)
    (h : r.isValid = false ∧ msg ∈ r.errors) :
    (FormHandler.nameChecks fieldName value r).isValid = false ∧
    msg ∈ (FormHandler.nameChecks fieldName value r).errors := by
  obtain ⟨h1, h2⟩ := h
  simp only [FormHandler.nameChecks]
  split
  · cases parseFloatJs value with
    | some t => split <;> split <;> split <;> simp_all [addErr, addWarn]
    | none => split <;> split <;> simp_all [addErr, addWarn]
  · split <;> split <;> simp_all [addErr, addWarn]

/-- C10 (confirmed): for every `number`-typed field whose value coerces to a
negative number, `FormHandler.validateField` reports the field invalid and
surfaces the positive-number message, independent of the field's name and of
any further name-specific checks. -/
theorem c10_negative_number_rejected (now : Nat) (f : Field) (q : Rat)
    (hty : f.ftype = "number")
    (hq : jsToNumber? (jsTrim f.value) = some q)
    (hneg : q < 0) :
    (FormHandler.validateField now f).isValid = false ∧
    "Please enter a valid positive number" ∈ (FormHandler.validateField now f).errors := by
  have hne : (jsTrim f.value == "") = false := by
    cases hv : jsTrim f.value == "" with
    | false => rfl
    | true =>
        have hvv : jsTrim f.value = "" := by simpa using hv
        rw [hvv] at hq
        have h0 : some (0 : Rat) = some q := by simpa [jsToNumber?] using hq
        have h0' : (0 : Rat) = q := by injection h0
        rw [← h0'] at hneg
        exact absurd hneg (by norm_num)
  have hnan : jsIsNaN (jsTrim f.value) = false := by simp [jsIsNaN, hq]
  have hlt : jsLtZero (jsTrim f.value) = true := by simp [jsLtZero, hq, hneg]
  have htype : FormHandler.typeCheck now f (jsTrim f.value) =
      addErr emptyVR "Please enter a valid positive number" := by
    simp [FormHandler.typeCheck, hty, hnan, hlt]
  have base : (addErr emptyVR "Please enter a valid positive number").isValid = false ∧
      "Please enter a valid positive number" ∈
        (addErr emptyVR "Please enter a valid positive number").errors := by
    simp [addErr, emptyVR]
  have hchain := nameChecks_preserves (FormHandler.fieldNameOf f) (jsTrim f.value)
    "Please enter a valid positive number" _ base
  simp only [FormHandler.validateField, hne, Bool.and_false, Bool.false_and, if_false]
  rw [if_neg Bool.false_ne_true, if_neg Bool.false_ne_true, htype]
  exact hchain

/-- C10, witness: the theorem applied to a number field holding `-5`. -/
theorem c10_negative_number_rejected_witness :
    (FormHandler.validateField 0 negQty).isValid = false ∧
    "Please enter a valid positive number" ∈ (FormHandler.validateField 0 negQty).errors :=
  c10_negative_number_rejected 0 negQty (-5) rfl (by decide) (by norm_num)

/-! ## Claim C1 — invalid forms never reach the backend -/

/-- C1 (amended): whenever `FormHandler.validateForm` reports
`isValid = false`, `FormHandler.submitForm` makes no backend call — but it
neither focuses the first invalid field (no statement of
`submitForm`/`validateForm` focuses anything) nor returns a failure result:
the validation error is thrown, and the catch block's reference to the
try-scoped `loadingId` escalates it to a `ReferenceError` that escapes
`submitForm`. -/
theorem c1_invalid_form_no_submission (env : FormHandler.SubmitEnv) (form : FormModel)
    (h : (FormHandler.validateForm env.now form).isValid = false) :
    (FormHandler.submitForm env form).apiPosts = [] ∧
    (FormHandler.submitForm env form).focused = [] ∧
    (FormHandler.submitForm env form).outcome =
      FormHandler.Outcome.thrown FormHandler.refErrLoadingId := by
  simp [FormHandler.submitForm, FormHandler.catchTrace, h]

/-- C1, counterexample to the claim as stated: on a clinic form whose
required field is empty, validation fails and no backend call is made, but
no field is focused and the submission does not return a failure result — it
throws the catch block's `ReferenceError` instead. -/
theorem c1_counterexample :
    (FormHandler.validateForm 0 c1Form).isValid = false ∧
    (FormHandler.submitForm envPlain c1Form).apiPosts = [] ∧
    (FormHandler.submitForm envPlain c1Form).focused = [] ∧
    (FormHandler.submitForm envPlain c1Form).outcome =
      FormHandler.Outcome.thrown FormHandler.refErrLoadingId := by
  decide

/-- C1, witness: the amended theorem applied to the clinic form with the
empty required field. -/
theorem c1_invalid_form_no_submission_witness :
    (FormHandler.validateForm envPlain.now c1Form).isValid = false ∧
    ((FormHandler.submitForm envPlain c1Form).apiPosts = [] ∧
     (FormHandler.submitForm envPlain c1Form).focused = [] ∧
     (FormHandler.submitForm envPlain c1Form).outcome =
       FormHandler.Outcome.thrown FormHandler.refErrLoadingId) :=
  ⟨by decide, c1_invalid_form_no_submission envPlain c1Form (by decide)⟩

/-! ## Claim C5 — the double-submit guard -/

/-- Helper: a submission of a valid, non-CSV, non-file form posts to exactly
its resolved endpoint (once), regardless of how the backend responds. -/
theorem submitForm_valid_posts (env : FormHandler.SubmitEnv) (form : FormModel)
    (hv : (FormHandler.validateForm env.now form).isValid = true)
    (hcsv : ((if form.formType == "" then "generic" else form.formType) == "pharmacyCSV") = false)
    (hfiles : FormHandler.hasFileUploads form = false) :
    (FormHandler.submitForm env form).apiPosts =
      [FormHandler.getEndpointForForm
        (if form.formType == "" then "generic" else form.formType)] := by
  simp only [FormHandler.submitForm, hv, hcsv, hfiles, Bool.not_true, Bool.false_and, if_false]
  simp [FormHandler.catchTrace]

/-- C5 (confirmed): triggering submit a second time within the same
synchronous tick, while the first trigger's synchronous prefix has already
disabled the submit control, is a no-op — the disabled control dispatches no
second submit event — so the two triggers start exactly one submission and
exactly one backend call is made in total. -/
theorem c5_double_submit_guard (env : FormHandler.SubmitEnv) (form : FormModel)
    (s0 : FormHandler.PageRun)
    (h0 : s0.btnDisabled = false) (h1 : s0.traces = [])
    (hbtn : form.hasSubmitButton = true)
    (hv : (FormHandler.validateForm env.now form).isValid = true)
    (hcsv : ((if form.formType == "" then "generic" else form.formType) == "pharmacyCSV") = false)
    (hfiles : FormHandler.hasFileUploads form = false) :
    FormHandler.triggerSubmit env form (FormHandler.triggerSubmit env form s0) =
      FormHandler.triggerSubmit env form s0 ∧
    FormHandler.totalApiPosts
      (FormHandler.triggerSubmit env form (FormHandler.triggerSubmit env form s0)) = 1 := by
  have hpost := submitForm_valid_posts env form hv hcsv hfiles
  have ht1 : FormHandler.triggerSubmit env form s0 =
      ⟨true, s0.traces ++ [FormHandler.submitForm env form]⟩ := by
    simp [FormHandler.triggerSubmit, h0, hbtn]
  have ht2 : FormHandler.triggerSubmit env form
      (⟨true, s0.traces ++ [FormHandler.submitForm env form]⟩ : FormHandler.PageRun) =
      ⟨true, s0.traces ++ [FormHandler.submitForm env form]⟩ := by
    simp [FormHandler.triggerSubmit]
  refine ⟨by rw [ht1, ht2], ?_⟩
  rw [ht1, ht2, h1]
  simp [FormHandler.totalApiPosts, hpost]

/-- C5, witness: the guard applied to a valid support form, two triggers from
an idle page. -/
theorem c5_double_submit_guard_witness :
    FormHandler.triggerSubmit envPlain notesForm
        (FormHandler.triggerSubmit envPlain notesForm ⟨false, []⟩) =
      FormHandler.triggerSubmit envPlain notesForm ⟨false, []⟩ ∧
    FormHandler.totalApiPosts
      (FormHandler.triggerSubmit envPlain notesForm
        (FormHandler.triggerSubmit envPlain notesForm ⟨false, []⟩)) = 1 :=
  c5_double_submit_guard envPlain notesForm ⟨false, []⟩ rfl rfl rfl (by decide)
    (by decide) (by decide)

/-! ## Claim C7 — behaviour of the failure path -/

/-- C7 (code bug): a submission that fails after validation does leave the
draft untouched, but the catch block (supabase-config.js lines 344–365) —
whose own statements are written to re-enable the submit control, restore its
label and surface the error — first evaluates `loadingId`, a `const` scoped
to the `try` block, and therefore throws a `ReferenceError`: the control
stays disabled with the busy label and no error notification is shown. The
valid support form exercises the path: validation passes, one backend call is
made, and the failure handling crashes. -/
theorem c7_failure_path_crashes :
    (FormHandler.validateForm 0 notesForm).isValid = true ∧
    (FormHandler.submitForm envPlain notesForm).apiPosts = ["/support-requests"] ∧
    (FormHandler.submitForm envPlain notesForm).outcome =
      FormHandler.Outcome.thrown FormHandler.refErrLoadingId ∧
    (FormHandler.submitForm envPlain notesForm).buttonDisabled = true ∧
    (FormHandler.submitForm envPlain notesForm).buttonLabel = "Submitting..." ∧
    (FormHandler.submitForm envPlain notesForm).notifications = [] ∧
    (FormHandler.submitForm envPlain notesForm).draftCleared = false := by
  decide

/-! ## Claim C6 — draft save/restore round trip -/

/-- Helper: inserting a fresh key appends it at the end. -/
theorem pushEntry_of_not_mem (d : List (String × FormHandler.FVal)) (k s : String)
    (h : ∀ e ∈ d, e.1 ≠ k) :
    FormHandler.pushEntry d k s = d ++ [(k, FormHandler.FVal.str s)] := by
  induction d with
  | nil => rfl
  | cons a rest ih =>
      obtain ⟨k', v⟩ := a
      have hk : (k' == k) = false := by
        simp only [beq_eq_false_iff_ne]
        exact h (k', v) (List.mem_cons_self _ _)
      simp only [FormHandler.pushEntry, hk, Bool.false_eq_true, if_false, List.cons_append,
        List.cons.injEq, true_and]
      exact ih fun e he => h e (List.mem_cons_of_mem _ he)

/-- Helper: with pairwise-distinct keys the entry fold degenerates to a map —
no value is merged into an array. -/
theorem buildData_of_nodup (E : List (String × String)) (acc : List (String × FormHandler.FVal))
    (hnd : (E.map Prod.fst).Nodup)
    (hdisj : ∀ kv ∈ E, ∀ e ∈ acc, e.1 ≠ kv.1) :
    E.foldl (fun d kv => FormHandler.pushEntry d kv.1 kv.2) acc =
      acc ++ E.map (fun kv => (kv.1, FormHandler.FVal.str kv.2)) := by
  induction E generalizing acc with
  | nil => simp
  | cons kv E ih =>
      have hnd' : (kv.1 :: E.map Prod.fst).Nodup := by simpa using hnd
      obtain ⟨hhead, htail⟩ := List.nodup_cons.mp hnd'
      have hstep : FormHandler.pushEntry acc kv.1 kv.2 =
          acc ++ [(kv.1, FormHandler.FVal.str kv.2)] :=
        pushEntry_of_not_mem acc kv.1 kv.2
          (fun e he => hdisj kv (List.mem_cons_self _ _) e he)
      have hdisj' : ∀ kv' ∈ E, ∀ e ∈ acc ++ [(kv.1, FormHandler.FVal.str kv.2)], e.1 ≠ kv'.1 := by
        intro kv' hkv' e he
        rcases List.mem_append.mp he with he' | he'
        · exact hdisj kv' (List.mem_cons_of_mem _ hkv') e he'
        · have : e = (kv.1, FormHandler.FVal.str kv.2) := by simpa using he'
          rw [this]
          intro hEq
          exact hhead (hEq ▸ List.mem_map_of_mem Prod.fst hkv')
      calc (kv :: E).foldl (fun d kv => FormHandler.pushEntry d kv.1 kv.2) acc
          = E.foldl (fun d kv => FormHandler.pushEntry d kv.1 kv.2)
              (acc ++ [(kv.1, FormHandler.FVal.str kv.2)]) := by
            simp [List.foldl_cons, hstep]
        _ = acc ++ [(kv.1, FormHandler.FVal.str kv.2)] ++
              E.map (fun kv => (kv.1, FormHandler.FVal.str kv.2)) := ih _ htail hdisj'
        _ = acc ++ (kv :: E).map (fun kv => (kv.1, FormHandler.FVal.str kv.2)) := by
            simp

/-- Helper: characterization of a `FormData` entry. -/
theorem entryOf_eq_some (f : Field) (a b : String)
    (h : FormHandler.entryOf f = some (a, b)) :
    a = f.name ∧ b = f.value ∧ f.name ≠ "" ∧ f.ftype ≠ "file" ∧
      ((f.ftype = "checkbox" ∨ f.ftype = "radio") → f.checked = true) := by
  by_cases hn : f.name = ""
  · simp [FormHandler.entryOf, hn] at h
  · by_cases hf : f.ftype = "file"
    · simp [FormHandler.entryOf, hn, hf] at h
    · by_cases hcb : (f.ftype == "checkbox" || f.ftype == "radio") = true
      · by_cases hch : f.checked = true
        · simp [FormHandler.entryOf, hn, hf, hcb, hch] at h
          exact ⟨h.1.symm, h.2.symm, hn, hf, fun _ => hch⟩
        · simp [FormHandler.entryOf, hn, hf, hcb, hch] at h
      · simp [FormHandler.entryOf, hn, hf, hcb] at h
        refine ⟨h.1.symm, h.2.symm, hn, hf, ?_⟩
        intro hc
        rcases hc with hc | hc <;> simp [hc] at hcb

/-- Helper: the entry keys are a sublist of the field names. -/
theorem formDataEntries_keys_sublist (fs : List Field) :
    ((FormHandler.formDataEntries fs).map Prod.fst).Sublist (fs.map Field.name) := by
  induction fs with
  | nil => simp [FormHandler.formDataEntries]
  | cons f rest ih =>
      cases h : FormHandler.entryOf f with
      | none =>
          simp only [FormHandler.formDataEntries, List.filterMap_cons, h, List.map_cons]
          exact ih.cons _
      | some kv =>
          obtain ⟨a, b⟩ := kv
          obtain ⟨ha, _, _, _, _⟩ := entryOf_eq_some f a b h
          simp only [FormHandler.formDataEntries, List.filterMap_cons, h, List.map_cons, ha]
          exact ih.cons₂ _

/-- Helper: distinct field names give distinct entry keys. -/
theorem formDataEntries_keys_nodup (fs : List Field)
    (h : (fs.map Field.name).Nodup) :
    ((FormHandler.formDataEntries fs).map Prod.fst).Nodup :=
  h.sublist (formDataEntries_keys_sublist fs)

/-- Helper: a checked, named checkbox contributes its entry, so its name is
among the entry keys. -/
theorem checked_checkbox_key_mem (fs : List Field) (f : Field)
    (hf : f ∈ fs) (hty : f.ftype = "checkbox") (hch : f.checked = true)
    (hn : f.name ≠ "") :
    f.name ∈ (FormHandler.formDataEntries fs).map Prod.fst := by
  have hentry : FormHandler.entryOf f = some (f.name, f.value) := by
    simp [FormHandler.entryOf, hn, hty, hch]
  have hmem : (f.name, f.value) ∈ FormHandler.formDataEntries fs :=
    List.mem_filterMap.mpr ⟨f, hf, hentry⟩
  exact List.mem_map_of_mem Prod.fst hmem

/-- Helper: unfolding one step of the unchecked-checkbox pass. -/
theorem addUncheckedBoxes_cons (d : List (String × FormHandler.FVal)) (f : Field)
    (rest : List Field) :
    FormHandler.addUncheckedBoxes d (f :: rest) =
      FormHandler.addUncheckedBoxes
        (if f.ftype == "checkbox" && (d.find? (fun e => e.1 == f.name)).isNone then
          d ++ [(f.name, FormHandler.FVal.boolF false)]
         else d) rest := rfl

/-- Helper: membership after the unchecked-checkbox pass — an original entry,
or a `false` entry for a checkbox whose name was not yet a key. -/
theorem addUncheckedBoxes_mem (fs : List Field) (d : List (String × FormHandler.FVal))
    (kv : String × FormHandler.FVal) (h : kv ∈ FormHandler.addUncheckedBoxes d fs) :
    kv ∈ d ∨ ∃ f, f ∈ fs ∧ f.ftype = "checkbox" ∧
      kv = (f.name, FormHandler.FVal.boolF false) ∧ ∀ e ∈ d, e.1 ≠ f.name := by
  induction fs generalizing d with
  | nil => exact Or.inl h
  | cons f rest ih =>
      rw [addUncheckedBoxes_cons] at h
      by_cases hcond : (f.ftype == "checkbox" && (d.find? (fun e => e.1 == f.name)).isNone) = true
      · rw [if_pos hcond] at h
        simp only [Bool.and_eq_true] at hcond
        obtain ⟨hcbx, hfind⟩ := hcond
        have hkeys : ∀ e ∈ d, e.1 ≠ f.name := by
          intro e he
          have := List.find?_eq_none.mp (Option.isNone_iff_eq_none.mp hfind) e he
          simpa using this
        rcases ih _ h with hin | ⟨g, hg, hgc, hgkv, hgkeys⟩
        · rcases List.mem_append.mp hin with hin' | hin'
          · exact Or.inl hin'
          · refine Or.inr ⟨f, List.mem_cons_self _ _, by simpa using hcbx, by simpa using hin', hkeys⟩
        · refine Or.inr ⟨g, List.mem_cons_of_mem _ hg, hgc, hgkv, ?_⟩
          intro e he
          exact hgkeys e (List.mem_append_left _ he)
      · rw [if_neg hcond] at h
        rcases ih _ h with hin | ⟨g, hg, hgc, hgkv, hgkeys⟩
        · exact Or.inl hin
        · exact Or.inr ⟨g, List.mem_cons_of_mem _ hg, hgc, hgkv, hgkeys⟩

/-- Helper: applying a draft entry whose key is `f`'s name, when names are
distinct, `f` is not a radio, and the update leaves `f` unchanged, is the
identity on the field list. -/
theorem applyDraftEntry_self (fs : List Field) (f : Field) (v : FormHandler.FVal)
    (hmem : f ∈ fs) (hnodup : (fs.map Field.name).Nodup)
    (hupd : FormHandler.updateFieldFromDraft f v = f)
    (hradio : f.ftype ≠ "radio") :
    FormHandler.applyDraftEntry fs f.name v = fs := by
  induction fs with
  | nil => cases hmem
  | cons g rest ih =>
      have hnd' : (g.name :: rest.map Field.name).Nodup := by simpa using hnodup
      obtain ⟨hghead, hgtail⟩ := List.nodup_cons.mp hnd'
      rcases List.mem_cons.mp hmem with rfl | hmem'
      · have hrb : (f.ftype == "radio") = false := by simpa using hradio
        simp [FormHandler.applyDraftEntry, hupd, hrb]
      · have hgne : (g.name == f.name) = false := by
          simp only [beq_eq_false_iff_ne]
          intro hEq
          exact hghead (hEq ▸ List.mem_map_of_mem Field.name hmem')
        simp only [FormHandler.applyDraftEntry, hgne, Bool.false_eq_true, if_false,
          List.cons.injEq, true_and]
        exact ih hmem' hgtail

/-- Helper: membership after a property assignment — the assigned pair, or
an original entry. -/
theorem mem_setVal (d : List (String × FormHandler.FVal)) (k : String)
    (v : FormHandler.FVal) (kv : String × FormHandler.FVal)
    (h : kv ∈ FormHandler.setVal d k v) : kv = (k, v) ∨ kv ∈ d := by
  induction d with
  | nil => simpa [FormHandler.setVal] using h
  | cons a rest ih =>
      obtain ⟨k', v'⟩ := a
      by_cases hk : (k' == k) = true
      · rw [show FormHandler.setVal ((k', v') :: rest) k v = (k', v) :: rest from by
          simp [FormHandler.setVal, hk]] at h
        rcases List.mem_cons.mp h with h1 | h1
        · exact Or.inl (by rw [h1, eq_of_beq hk])
        · exact Or.inr (List.mem_cons_of_mem _ h1)
      · rw [show FormHandler.setVal ((k', v') :: rest) k v =
            (k', v') :: FormHandler.setVal rest k v from by
          simp only [FormHandler.setVal]
          rw [if_neg (by simpa using hk)]] at h
        rcases List.mem_cons.mp h with h1 | h1
        · exact Or.inr (h1 ▸ List.mem_cons_self _ _)
        · rcases ih h1 with h2 | h2
          · exact Or.inl h2
          · exact Or.inr (List.mem_cons_of_mem _ h2)

/-- Helper: a draft entry whose key names no control restores nothing. -/
theorem applyDraftEntry_no_match (fs : List Field) (k : String) (v : FormHandler.FVal)
    (h : ∀ f ∈ fs, f.name ≠ k) :
    FormHandler.applyDraftEntry fs k v = fs := by
  induction fs with
  | nil => rfl
  | cons f rest ih =>
      have hf : (f.name == k) = false := by
        simpa using h f (List.mem_cons_self _ _)
      simp only [FormHandler.applyDraftEntry, hf, Bool.false_eq_true, if_false,
        List.cons.injEq, true_and]
      exact ih fun g hg => h g (List.mem_cons_of_mem _ hg)

/-- Helper: every entry of the draft snapshot restores to the state the form
already has, under the round-trip hypotheses. -/
theorem draftEntry_applies_id (form : FormModel)
    (hnodup : (form.fields.map Field.name).Nodup)
    (hname : ∀ f ∈ form.fields, f.name ≠ "")
    (hmeta : ∀ f ∈ form.fields, f.name ≠ "_metadata")
    (hradio : ∀ f ∈ form.fields, f.ftype ≠ "radio")
    (hcb : ∀ f ∈ form.fields, f.ftype = "checkbox" → f.value ≠ "")
    (hsel : ∀ f ∈ form.fields, f.tag = Tag.select → f.value ∈ f.options)
    (kv : String × FormHandler.FVal)
    (hkv : kv ∈ FormHandler.prepareFormData form true) :
    FormHandler.applyDraftEntry form.fields kv.1 kv.2 = form.fields := by
  have hE := formDataEntries_keys_nodup form.fields hnodup
  have hbuild : FormHandler.buildData (FormHandler.formDataEntries form.fields) =
      (FormHandler.formDataEntries form.fields).map
        (fun kv => (kv.1, FormHandler.FVal.str kv.2)) :=
    buildData_of_nodup _ [] hE (by simp)
  have hpf : FormHandler.prepareFormData form true =
      FormHandler.setVal
        (FormHandler.addUncheckedBoxes
          (FormHandler.buildData (FormHandler.formDataEntries form.fields)) form.fields)
        "_metadata"
        (FormHandler.FVal.metaObj
          (if form.formType == "" then "generic" else form.formType)) := rfl
  rw [hpf] at hkv
  rcases mem_setVal _ _ _ _ hkv with hkvm | hkv'
  · -- the metadata entry: its key names no control, so nothing is restored
    rw [hkvm]
    exact applyDraftEntry_no_match form.fields _ _ hmeta
  rcases addUncheckedBoxes_mem _ _ _ hkv' with hin | ⟨f, hf, hcbx, hkveq, hkeys⟩
  · -- a FormData entry: kv = (f.name, str f.value) for the field f it came from
    rw [hbuild] at hin
    obtain ⟨e, he, heq⟩ := List.mem_map.mp hin
    obtain ⟨f, hf, hentry⟩ := List.mem_filterMap.mp he
    obtain ⟨ha, hb, hn, hfile, hcbr⟩ := entryOf_eq_some f e.1 e.2 (by simpa using hentry)
    have hkv1 : kv.1 = f.name := by rw [← heq, ha]
    have hkv2 : kv.2 = FormHandler.FVal.str f.value := by rw [← heq]; simp [hb]
    have hupd : FormHandler.updateFieldFromDraft f kv.2 = f := by
      rw [hkv2]
      by_cases hc : f.ftype = "checkbox"
      · have hch : f.checked = true := hcbr (Or.inl hc)
        have hv : f.value ≠ "" := hcb f hf hc
        have htr : (FormHandler.FVal.str f.value).truthy = true := by
          simp [FormHandler.FVal.truthy, hv]
        have hcond : (f.ftype == "checkbox" || f.ftype == "radio") = true := by simp [hc]
        simp only [FormHandler.updateFieldFromDraft]
        rw [if_pos hcond, htr, ← hch]
      · have hcr : (f.ftype == "checkbox" || f.ftype == "radio") = false := by
          simp [hc, hradio f hf]
        simp only [FormHandler.updateFieldFromDraft]
        rw [if_neg (by simp [hcr])]
        by_cases hs : f.tag = Tag.select
        · have hsb : (f.tag == Tag.select) = true := by simp [hs]
          rw [if_pos hsb]
          have hopt : f.options.contains
              (FormHandler.FVal.asString (FormHandler.FVal.str f.value)) = true := by
            have : f.value ∈ f.options := hsel f hf hs
            simpa [FormHandler.FVal.asString] using this
          rw [if_pos hopt]
          rfl
        · have hsb : (f.tag == Tag.select) = false := by simpa using hs
          rw [if_neg (by simp [hsb])]
          rfl
    rw [hkv1]
    exact applyDraftEntry_self form.fields f kv.2 hf hnodup hupd (hradio f hf)
  · -- an unchecked-checkbox entry: kv = (f.name, boolF false) and f is unchecked
    have hch : f.checked = false := by
      cases hchk : f.checked with
      | false => rfl
      | true =>
          have hn := hname f hf
          have hkey := checked_checkbox_key_mem form.fields f hf hcbx hchk hn
          obtain ⟨e, he, heq⟩ := List.mem_map.mp hkey
          have hmem2 : (e.1, FormHandler.FVal.str e.2) ∈
              FormHandler.buildData (FormHandler.formDataEntries form.fields) := by
            rw [hbuild]
            exact List.mem_map.mpr ⟨e, he, rfl⟩
          have := hkeys _ hmem2
          simp [heq] at this
    have hupd : FormHandler.updateFieldFromDraft f (FormHandler.FVal.boolF false) = f := by
      have hcond : (f.ftype == "checkbox" || f.ftype == "radio") = true := by simp [hcbx]
      simp only [FormHandler.updateFieldFromDraft]
      rw [if_pos hcond, show (FormHandler.FVal.boolF false).truthy = false from rfl, ← hch]
    have hradiof : f.ftype ≠ "radio" := by rw [hcbx]; decide
    rw [hkveq]
    exact applyDraftEntry_self form.fields f (FormHandler.FVal.boolF false) hf hnodup hupd hradiof

/-- Helper: a fold of identity steps is the identity. -/
theorem foldl_applyDraftEntry_id (fs : List Field) (l : List (String × FormHandler.FVal))
    (h : ∀ kv ∈ l, FormHandler.applyDraftEntry fs kv.1 kv.2 = fs) :
    l.foldl (fun a kv => FormHandler.applyDraftEntry a kv.1 kv.2) fs = fs := by
  induction l with
  | nil => rfl
  | cons kv t ih =>
      rw [List.foldl_cons, h kv (List.mem_cons_self _ _)]
      exact ih fun e he => h e (List.mem_cons_of_mem _ he)

/-- Helper: what was just stored is what is read back. -/
theorem getItem_setItem (st : List (String × FormHandler.DraftData)) (k : String)
    (v : FormHandler.DraftData) :
    FormHandler.getItem (FormHandler.setItem st k v) k = some v := by
  induction st with
  | nil => simp [FormHandler.setItem, FormHandler.getItem, List.lookup]
  | cons a rest ih =>
      obtain ⟨k', v'⟩ := a
      by_cases hk : (k' == k) = true
      · have hk' : (k == k') = true := by
          have := eq_of_beq hk
          simp [this]
        simp [FormHandler.setItem, FormHandler.getItem, List.lookup, hk, hk']
      · have hkne : (k == k') = false := by
          have : k' ≠ k := by simpa using hk
          simp [Ne.symm this]
        simp only [FormHandler.setItem, hk, Bool.false_eq_true, if_false]
        simpa [FormHandler.getItem, List.lookup, hkne] using ih

/-- C6, counterexample. The claim promises the round trip restores every
non-file field; on a form whose radio group has its second member checked,
`restoreDraft` finds the *first* group member by name, sets its `checked` to
the truthy saved value, and thereby unchecks the member that was selected at
save time. -/
theorem c6_counterexample :
    FormHandler.getItem (FormHandler.saveDraft [] radioForm 100 "/clinic.html")
        (FormHandler.draftKey radioForm) =
      some ⟨100, [("route", FormHandler.FVal.str "iv"),
        ("_metadata", FormHandler.FVal.metaObj "clinicForm")], "/clinic.html"⟩ ∧
    FormHandler.restoreDraft radioForm
        ⟨100, [("route", FormHandler.FVal.str "iv"),
          ("_metadata", FormHandler.FVal.metaObj "clinicForm")], "/clinic.html"⟩ ≠ radioForm ∧
    (FormHandler.restoreDraft radioForm
        ⟨100, [("route", FormHandler.FVal.str "iv"),
          ("_metadata", FormHandler.FVal.metaObj "clinicForm")],
         "/clinic.html"⟩).fields.map Field.checked =
      [true, false] ∧
    radioForm.fields.map Field.checked = [false, true] := by
  decide

/-- C6 (amended): for a non-empty form whose field names are distinct,
nonempty and different from `_metadata` (the key line 928 assigns the
metadata object to, clobbering any same-named entry), with no radio group
and no file input, whose checkboxes carry a non-empty value attribute and
whose selects hold one of their option values, `saveDraft` followed
immediately by `restoreDraft` of the stored draft restores every field to
exactly the state it had at save time. Radio groups (and same-named controls
generally) are not restored faithfully — see the counterexample. -/
theorem c6_draft_round_trip (form : FormModel) (st : List (String × FormHandler.DraftData))
    (now : Nat) (url : String)
    (hnodup : (form.fields.map Field.name).Nodup)
    (hname : ∀ f ∈ form.fields, f.name ≠ "")
    (hmeta : ∀ f ∈ form.fields, f.name ≠ "_metadata")
    (hradio : ∀ f ∈ form.fields, f.ftype ≠ "radio")
    (hfile : ∀ f ∈ form.fields, f.ftype ≠ "file")
    (hcb : ∀ f ∈ form.fields, f.ftype = "checkbox" → f.value ≠ "")
    (hsel : ∀ f ∈ form.fields, f.tag = Tag.select → f.value ∈ f.options)
    (hne : FormHandler.isFormEmpty (FormHandler.prepareFormData form true) = false) :
    ∃ dd, FormHandler.getItem (FormHandler.saveDraft st form now url)
        (FormHandler.draftKey form) = some dd ∧
      FormHandler.restoreDraft form dd = form := by
  refine ⟨⟨now, FormHandler.prepareFormData form true, url⟩, ?_, ?_⟩
  · have hsave : FormHandler.saveDraft st form now url =
        FormHandler.setItem st (FormHandler.draftKey form)
          ⟨now, FormHandler.prepareFormData form true, url⟩ := by
      simp [FormHandler.saveDraft, hne]
    rw [hsave]
    exact getItem_setItem st _ _
  · have hfold : (FormHandler.prepareFormData form true).foldl
        (fun fs kv => FormHandler.applyDraftEntry fs kv.1 kv.2) form.fields = form.fields :=
      foldl_applyDraftEntry_id _ _
        (fun kv hkv => draftEntry_applies_id form hnodup hname hmeta hradio hcb hsel kv hkv)
    show ({ form with fields := _ } : FormModel) = form
    rw [hfold]

/-- C6, witness: the amended round trip applied to a lab form holding a text
field and a checked checkbox. -/
theorem c6_draft_round_trip_witness :
    ∃ dd, FormHandler.getItem (FormHandler.saveDraft [] draftForm 5 "/lab.html")
        (FormHandler.draftKey draftForm) = some dd ∧
      FormHandler.restoreDraft draftForm dd = draftForm :=
  c6_draft_round_trip draftForm [] 5 "/lab.html" (by decide) (by decide) (by decide)
    (by decide) (by decide) (by decide) (by decide) (by decide)

end MediTrack
